import Mathlib

/-!
Verification development for the LifeBook voice subsystem
(`services/api/app/services/speaker_recognition_eagle.py` and
`services/api/app/routers/voice.py`), shallowly embedded in Lean.

Conventions of the embedding:
* Python `bytes` are `List Nat` (each entry a byte value `< 256`).
* 16-bit PCM samples are `Int` (two's-complement decode of `struct "<h"`).
* Python `float` scores/percentages are modelled as `ℚ`.
* The Picovoice Eagle backend (`pveagle`) is an external collaborator; it is
  modelled as an abstract structure of the operations the code calls
  (`min_enroll_samples`, `enroll`, `export`, `frame_length`, `process`,
  `EagleProfile.from_bytes`), with explicit internal state threaded through,
  universally quantified in the theorems.
* The database session is modelled as an explicit record of rows; `db.flush`
  / `db.commit` are the identity (the functions mutate the row values).
-/

namespace LifeBook

/-- Model of `DEFAULT_FAMILY_ID` from `app/core/config.py`. -/
def DEFAULT_FAMILY_ID : String := "00000000-0000-4000-a000-000000000001"

/-! ## Byte-level audio decoding (`speaker_recognition_eagle.py`) -/

/-- Decode of `struct.unpack("<h", bytes([lo, hi]))[0]`: little-endian
two's-complement signed 16-bit integer. -/
def int16OfBytes (lo hi : Nat) : Int :=
  let u : Nat := lo + 256 * hi
  if u < 32768 then (u : Int) else (u : Int) - 65536

/-- Encode of `struct.pack("<h", s)`: the two little-endian bytes of a
16-bit sample (two's complement). -/
def int16ToBytes (s : Int) : List Nat :=
  let u : Nat := (s.emod 65536).toNat
  [u % 256, u / 256]

/-- Model of `struct.pack(f"<{len(pcm)}h", *pcm)`: samples to little-endian bytes. -/
def int16sToBytes (pcm : List Int) : List Nat :=
  pcm.flatMap int16ToBytes

/-- Decode consecutive little-endian 16-bit samples from a byte string,
dropping a trailing odd byte.  This is the loop
`[struct.unpack_from("<h", data, i * 2)[0] for i in range(len(data) // 2)]`
(`wav_to_pcm`), and also the loop
`for i in range(0, len(new_pending), 2): if i + 2 <= len(new_pending): ...`
(`enroll_participant`): both read the byte pairs in order and ignore a
trailing unpaired byte. -/
def bytesToInt16s : List Nat → List Int
  | b0 :: b1 :: rest => int16OfBytes b0 b1 :: bytesToInt16s rest
  | _ => []

/-- Model of `WAV_HEADER_LEN` from the source. -/
def WAV_HEADER_LEN : Nat := 44

/-- The ASCII bytes of `b"RIFF"`. -/
def riffMagic : List Nat := [82, 73, 70, 70]

/-- The ASCII bytes of `b"WAVE"`. -/
def waveMagic : List Nat := [87, 65, 86, 69]

/-- Model of `wav_to_pcm` from `speaker_recognition_eagle.py`:
reject inputs shorter than `44 + 2` bytes or without the `RIFF`/`WAVE`
container tags; otherwise decode the body after the 44-byte header as
little-endian int16 samples (a trailing odd byte is dropped by
`data = data[: len(data) - 1]`, which `bytesToInt16s` performs implicitly).
The source's `except struct.error` branch is unreachable because the index
range is computed from `len(data) // 2`. -/
def wav_to_pcm (wav_bytes : List Nat) : Option (List Int) :=
  if wav_bytes.length < WAV_HEADER_LEN + 2 then none
  else if wav_bytes.take 4 ≠ riffMagic ∨ (wav_bytes.drop 8).take 4 ≠ waveMagic then none
  else some (bytesToInt16s (wav_bytes.drop WAV_HEADER_LEN))

/-! ## The Eagle backend as an abstract collaborator

`pveagle.create_profiler` / `create_recognizer` return stateful objects.
We model each as a structure over an explicit state type: every operation
the Python code calls becomes a field, with the object's hidden state
threaded through.  `min_pos` records Eagle's documented contract that the
minimum enrollment chunk is a positive number of samples (the Python
`while` loop would not terminate otherwise). -/

structure ProfilerBackend (σ : Type) where
  min_enroll_samples : Nat
  min_pos : 0 < min_enroll_samples
  init : σ
  enroll : σ → List Int → σ × ℚ
  export_profile : σ → List Nat

/-- The recognizer side of the backend: `EagleProfile.from_bytes` is modelled
by the predicate `from_bytes` (whether the blob parses), `create_recognizer`
by `init`, and the stateful `recognizer.process(frame)` by `process`,
returning the per-profile scores of this frame. -/
structure RecognizerBackend (ρ : Type) where
  frame_length : Nat
  from_bytes : List Nat → Bool
  init : ρ
  process : ρ → List Int → ρ × List ℚ

/-! ## Enrollment (`enroll_participant`) -/

/-- The row fields of `models.VoiceParticipant` read or written by the
voice-ID code. -/
structure VoiceParticipant where
  id : String
  family_id : String
  label : String
  eagle_profile_data : Option (List Nat)
  eagle_pending_pcm : Option (List Nat)
  enrollment_status : Option String
  deriving DecidableEq, Repr

/-- The result dict of `enroll_participant`:
`{"ok": ..., "message": ..., "remaining_speech_sec": ...}`. -/
structure EnrollResult where
  ok : Bool
  message : String
  remaining_speech_sec : Option ℚ
  deriving DecidableEq, Repr

/-- The `while idx < len(pcm_from_pending) and percentage < 100.0` loop of
`enroll_participant`, feeding `min_enroll_samples`-sized chunks to
`profiler.enroll` and stopping on a short chunk.  The loop advances `idx`
by `min_enroll_samples ≥ 1` each iteration, so it runs at most
`pcm.length + 1` times; `fuel` is instantiated with `pcm.length + 1` and
structural recursion on it makes the definition kernel-reducible (the
`fuel = 0` branch is unreachable, see `enrollLoopFuel_fuel_irrelevant`). -/
def enrollLoopFuel {σ : Type} (P : ProfilerBackend σ) (pcm : List Int) :
    Nat → σ → Nat → ℚ → σ × ℚ
  | 0, st, _, pct => (st, pct)
  | fuel + 1, st, idx, pct =>
    if idx < pcm.length ∧ pct < 100 then
      let chunk := (pcm.drop idx).take P.min_enroll_samples
      if chunk.length < P.min_enroll_samples then (st, pct)
      else
        let r := P.enroll st chunk
        enrollLoopFuel P pcm fuel r.1 (idx + P.min_enroll_samples) r.2
    else (st, pct)

/-- The profiling pass of one `enroll_participant` call: run the chunk loop
over the PCM decoded from the full accumulated pending byte buffer, from a
fresh profiler (`pveagle.create_profiler`), starting at `idx = 0`,
`percentage = 0.0`. -/
def enrollPass {σ : Type} (P : ProfilerBackend σ) (pending : List Nat) : σ × ℚ :=
  let pcm := bytesToInt16s pending
  enrollLoopFuel P pcm (pcm.length + 1) P.init 0 0

/-- Model of `enroll_participant` from `speaker_recognition_eagle.py`.
`available` models `bool(_access_key())`; `pveagle` is taken as importable
and the profiler as raising no exception (the abstract backend is total, so
the `except` → `"Enrollment failed"` branch has no counterpart).  Returns
the updated row together with the result dict. -/
def enroll_participant {σ : Type} (P : ProfilerBackend σ) (available : Bool)
    (participant : VoiceParticipant) (wav_bytes : List Nat) :
    VoiceParticipant × EnrollResult :=
  if available = false then
    (participant, ⟨false, "Voice ID not configured", none⟩)
  else
    match wav_to_pcm wav_bytes with
    | none => (participant, ⟨false, "Invalid or unsupported WAV", none⟩)
    | some pcm =>
      -- Python `if not pcm`: also rejects an empty sample list
      if pcm = [] then (participant, ⟨false, "Invalid or unsupported WAV", none⟩)
      else
        let pending := participant.eagle_pending_pcm.getD []
        let new_pending := pending ++ int16sToBytes pcm
        let part1 := { participant with eagle_pending_pcm := some new_pending }
        let pcm_from_pending := bytesToInt16s new_pending
        if pcm_from_pending = [] then
          (part1, ⟨true, "Enrolling (add more speech)", some 10⟩)
        else
          let pass := enrollPass P new_pending
          if 100 ≤ pass.2 then
            ({ part1 with
                eagle_profile_data := some (P.export_profile pass.1),
                eagle_pending_pcm := none,
                enrollment_status := some "Enrolled" },
             ⟨true, "Enrolled", none⟩)
          else
            ({ part1 with enrollment_status := some "Enrolling" },
             ⟨true, "Enrolling (add more speech for best recognition)",
              some (max 0 (15 - (pcm_from_pending.length : ℚ) / 16000))⟩)

/-! ## Identification (`identify_single_speaker`) -/

/-- Model of `IDENTIFY_SCORE_THRESHOLD` from the source (`0.5`). -/
def IDENTIFY_SCORE_THRESHOLD : ℚ := 1 / 2

/-- Python `range(0, stop, step)` for `step > 0`: the multiples of `step`
below `stop`, i.e. `j * step` for `j < ⌈stop / step⌉`.  (For `step = 0`
Python raises `ValueError`; the caller guards that case separately.) -/
def pyRange (stop step : Nat) : List Nat :=
  (List.range ((stop + step - 1) / step)).map (· * step)

/-- The frame start offsets of the identification loop:
`range(0, len(pcm) - frame_len, frame_len)`.  Python's `len(pcm) - frame_len`
may be negative, giving an empty range; `Nat` subtraction truncates to `0`
with the same effect. -/
def frameStarts {ρ : Type} (B : RecognizerBackend ρ) (pcm : List Int) : List Nat :=
  pyRange (pcm.length - B.frame_length) B.frame_length

/-- Model of `for j, s in enumerate(frame_scores): if j < len(scores_per_speaker):
scores_per_speaker[j].append(s)`: append the frame's scores pointwise;
surplus scores are dropped, surplus lists are left unchanged. -/
def updateScores : List (List ℚ) → List ℚ → List (List ℚ)
  | [], _ => []
  | l :: ls, [] => l :: updateScores ls []
  | l :: ls, s :: ss => (l ++ [s]) :: updateScores ls ss

/-- The per-frame scoring loop of `identify_single_speaker`: for each start
offset take the frame `pcm[i : i + frame_len]`, stop if it is not a full
frame (`if len(frame) != frame_len: break` — in fact unreachable for the
offsets produced by `frameStarts`), otherwise feed it to the stateful
recognizer and accumulate its scores. -/
def frameLoop {ρ : Type} (B : RecognizerBackend ρ) (pcm : List Int) :
    List Nat → ρ → List (List ℚ) → List (List ℚ)
  | [], _, acc => acc
  | i :: rest, st, acc =>
    let frame := (pcm.drop i).take B.frame_length
    if frame.length ≠ B.frame_length then acc
    else
      let r := B.process st frame
      frameLoop B pcm rest r.1 (updateScores acc r.2)

/-- Model of `scores_per_speaker` after the whole loop, starting from
`[[] for _ in profiles]` (`n` = number of parsed profiles) and a fresh
recognizer. -/
def frameScores {ρ : Type} (B : RecognizerBackend ρ) (n : Nat) (pcm : List Int) :
    List (List ℚ) :=
  frameLoop B pcm (frameStarts B pcm) B.init (List.replicate n [])

/-- Model of `sum(lst) / len(lst) if lst else 0.0`. -/
def meanQ (l : List ℚ) : ℚ :=
  if l = [] then 0 else l.sum / l.length

/-- Model of `mean_scores`: each candidate's mean over its accumulated frame scores. -/
def candidateMeanScores {ρ : Type} (B : RecognizerBackend ρ) (n : Nat)
    (pcm : List Int) : List ℚ :=
  (frameScores B n pcm).map meanQ

/-- Helper for `pyArgmax`: scan the remaining values (`ys`, whose first
element has index `i`) keeping the best index/value so far; a new value
replaces the incumbent only when strictly greater, as Python's `max` does. -/
def pyArgmaxAux : List ℚ → Nat → Nat → ℚ → Nat
  | [], _, bi, _ => bi
  | y :: ys, i, bi, bv =>
    if bv < y then pyArgmaxAux ys (i + 1) i y
    else pyArgmaxAux ys (i + 1) bi bv

/-- Model of `max(range(len(xs)), key=lambda i: xs[i])`: the first index attaining
the maximum value. -/
def pyArgmax (xs : List ℚ) : Nat :=
  match xs with
  | [] => 0
  | x :: rest => pyArgmaxAux rest 1 0 x

/-- Model of `identify_single_speaker` from `speaker_recognition_eagle.py`.
`available` models `bool(_access_key())`; `pveagle` is importable.  A
`frame_length` of `0` makes Python's `range(..., 0)` raise `ValueError`,
which the surrounding `except` turns into `None`; the model returns `none`
directly in that case.  Note the source indexes the best candidate into
`participants_with_profiles`, the *unfiltered* list, even though
`best_idx` ranges over the parsed profiles only. -/
def identify_single_speaker {ρ : Type} (B : RecognizerBackend ρ) (available : Bool)
    (participants_with_profiles : List (String × List Nat))
    (wav_bytes : List Nat) : Option String :=
  if participants_with_profiles = [] then none
  else if available = false then none
  else
    match wav_to_pcm wav_bytes with
    | none => none
    | some pcm =>
      -- Python `if not pcm or len(pcm) < 1000`
      if pcm.length < 1000 then none
      else
        let profiles := participants_with_profiles.filter (fun p => B.from_bytes p.2)
        if profiles = [] then none
        else if B.frame_length = 0 then none
        else
          let mean_scores := candidateMeanScores B profiles.length pcm
          let best_idx := pyArgmax mean_scores
          if IDENTIFY_SCORE_THRESHOLD ≤ mean_scores.getD best_idx 0 then
            some ((participants_with_profiles.getD best_idx ("", [])).1)
          else none

/-! ## Python string primitives

Modelled over the character list of a `String` (Lean's own
`String.trim`/`toLower`/`startsWith`/`split` live on byte positions and do
not reduce in the kernel, so the Python operations are embedded directly). -/

/-- Python `str.strip()`: remove leading and trailing whitespace. -/
def pyStrip (s : String) : String :=
  String.mk (((s.toList.dropWhile Char.isWhitespace).reverse.dropWhile
    Char.isWhitespace).reverse)

/-- Python `str.lower()` (ASCII case folding). -/
def pyLower (s : String) : String :=
  String.mk (s.toList.map Char.toLower)

/-- Python `str.startswith(p)`. -/
def pyStartsWith (s p : String) : Bool :=
  p.toList.isPrefixOf s.toList

/-- Helper for `pySplit`: accumulate the current word (reversed) while
scanning the characters. -/
def pySplitAux : List Char → List Char → List String
  | [], cur => if cur = [] then [] else [String.mk cur.reverse]
  | c :: cs, cur =>
    if c.isWhitespace then
      if cur = [] then pySplitAux cs []
      else String.mk cur.reverse :: pySplitAux cs []
    else pySplitAux cs (c :: cur)

/-- Python `str.split()` with no argument: split on runs of whitespace,
producing no empty words. -/
def pySplit (text : String) : List String :=
  pySplitAux text.toList []

/-! ## Database rows and state (`app/db/models.py`, the fields used by
`routers/voice.py`) -/

/-- Model of `models.Moment`: the columns read or written by the voice-story
endpoints.  Timestamps are modelled as `Option Nat`. -/
structure Moment where
  id : String
  family_id : String
  title : String
  summary : Option String
  source : String
  participant_id : Option String
  tags_json : List String
  shared_at : Option Nat
  deleted_at : Option Nat
  deriving DecidableEq, Repr

/-- Model of `models.VoiceStory`. -/
structure VoiceStory where
  id : String
  family_id : String
  participant_id : String
  title : Option String
  summary : Option String
  tags_json : List String
  draft_text : Option String
  final_audio_asset_id : Option String
  status : String
  shared_moment_id : Option String
  deriving DecidableEq, Repr

/-- Model of `models.SharedStoryListen` (the two key columns). -/
structure SharedStoryListen where
  participant_id : String
  moment_id : String
  deriving DecidableEq, Repr

/-- Model of `models.MomentAsset`. -/
structure MomentAsset where
  moment_id : String
  asset_id : String
  role : String
  deriving DecidableEq, Repr

/-- The database state visible to the modelled endpoints. -/
structure DB where
  participants : List VoiceParticipant
  moments : List Moment
  stories : List VoiceStory
  listens : List SharedStoryListen
  moment_assets : List MomentAsset
  deriving DecidableEq, Repr

/-- Model of `HTTPException(status_code=..., detail=...)`. -/
structure HTTPError where
  status : Nat
  detail : String
  deriving DecidableEq, Repr

/-! ## `POST /voice/stories/shared/listened` (`mark_shared_story_listened`) -/

/-- Number of `SharedStoryListen` rows for a `(participant_id, moment_id)`
pair. -/
def countListens (db : DB) (pid mid : String) : Nat :=
  (db.listens.filter (fun l => l.participant_id = pid ∧ l.moment_id = mid)).length

/-- Model of `mark_shared_story_listened` from `routers/voice.py`: look up the
moment by `(id, family, source = "voice_story")` and the participant by
`(id, family)` (404 on either miss), then insert a `SharedStoryListen` row
only if none exists for the pair; always answer `{"listened": True}`.
The result is the updated database and the response. -/
def mark_shared_story_listened (db : DB) (participant_id moment_id : String) :
    DB × Except HTTPError Bool :=
  match db.moments.find? (fun m =>
      m.id = moment_id ∧ m.family_id = DEFAULT_FAMILY_ID ∧ m.source = "voice_story") with
  | none => (db, .error ⟨404, "Shared story not found."⟩)
  | some _ =>
    match db.participants.find? (fun p =>
        p.id = participant_id ∧ p.family_id = DEFAULT_FAMILY_ID) with
    | none => (db, .error ⟨404, "Participant not found."⟩)
    | some _ =>
      match db.listens.find? (fun l =>
          l.participant_id = participant_id ∧ l.moment_id = moment_id) with
      | some _ => (db, .ok true)
      | none =>
        ({ db with listens := db.listens ++ [⟨participant_id, moment_id⟩] }, .ok true)

/-- Iterate `n` sequential calls of `mark_shared_story_listened` with the same pair;
the boolean records whether every call succeeded. -/
def markIter (n : Nat) (db : DB) (pid mid : String) : DB × Bool :=
  match n with
  | 0 => (db, true)
  | n + 1 =>
    match mark_shared_story_listened db pid mid with
    | (db', .ok _) => markIter n db' pid mid
    | (db', .error _) => (db', false)

/-! ## `POST /voice/stories/{story_id}/share` (`share_voice_story`) -/

/-- Python string truthiness chain `a or b` on an optional string column:
the column's value when present and non-empty, otherwise `b`. -/
def strOr (a : Option String) (b : String) : String :=
  match a with
  | some s => if s = "" then b else s
  | none => b

/-- The response `{"shared": True, "momentId": ...}`. -/
structure ShareOut where
  shared : Bool
  momentId : String
  deriving DecidableEq, Repr

/-- Model of `share_voice_story` from `routers/voice.py`.  The query requires
`(id, family, participant, status == "final")` in one filter; any miss —
including a story in `draft` or already-`shared` status — raises
`404 "Story not found or already shared."` before any write.  On success a
new family-visible `Moment` is inserted with `shared_at` set, the narration
audio reference is copied when present, and the story row is updated to
`status = "shared"` with `shared_moment_id` pointing at the new moment.
`generate_story_title` (external AI collaborator) is the parameter
`title_gen`; `now` and `new_moment_id` stand for the clock and the
generated row id. -/
def share_voice_story (title_gen : String → Option String)
    (db : DB) (story_id participant_id : String) (now : Nat)
    (new_moment_id : String) : DB × Except HTTPError ShareOut :=
  match db.stories.find? (fun s =>
      s.id = story_id ∧ s.family_id = DEFAULT_FAMILY_ID ∧
      s.participant_id = participant_id ∧ s.status = "final") with
  | none => (db, .error ⟨404, "Story not found or already shared."⟩)
  | some story =>
    -- summary = (story.summary or "").strip() or (story.draft_text or "").strip()[:500] or None
    let summaryStr :=
      let a := pyStrip (story.summary.getD "")
      if a ≠ "" then a
      else String.mk ((pyStrip (story.draft_text.getD "")).toList.take 500)
    let summary : Option String := if summaryStr = "" then none else some summaryStr
    let content_for_title := pyStrip (strOr story.draft_text (strOr story.summary ""))
    let title0 := pyStrip (story.title.getD "")
    let title1 : Option String := if title0 ≠ "" then some title0 else none
    let title2 : Option String :=
      if content_for_title ≠ "" ∧ title1 = none then
        match title_gen content_for_title with
        | some t => if t ≠ "" then some t else title1
        | none => title1
      else title1
    let title := title2.getD "Voice story"
    let moment : Moment :=
      { id := new_moment_id, family_id := DEFAULT_FAMILY_ID, title := title,
        summary := summary, source := "voice_story",
        participant_id := some story.participant_id,
        tags_json := story.tags_json, shared_at := some now, deleted_at := none }
    let assets :=
      match story.final_audio_asset_id with
      | some aid => db.moment_assets ++ [⟨new_moment_id, aid, "session_audio"⟩]
      | none => db.moment_assets
    let stories :=
      db.stories.map (fun s =>
        if s.id = story.id then
          { s with status := "shared", shared_moment_id := some new_moment_id }
        else s)
    ({ db with moments := db.moments ++ [moment], moment_assets := assets,
               stories := stories },
     .ok ⟨true, new_moment_id⟩)

/-! ## `POST /voice/identify` (`voice_identify`, eagle branch) -/

/-- The `IdentifyOut` response model. -/
structure IdentifyOut where
  recognized : Bool
  participant_id : Option String
  label : Option String
  deriving DecidableEq, Repr

/-- Model of `voice_identify` from `routers/voice.py`, with
`settings.voice_id_backend = "eagle"` (the default).  `available` models
`speaker_recognition_available()`; `convert` models `to_wav_16k_mono`
(ffmpeg, an external collaborator).  When the backend is not configured the
endpoint answers `IdentifyOut(recognized=False)` before reading the body;
the same value is used for an empty candidate set and for a no-match. -/
def voice_identify {ρ : Type} (B : RecognizerBackend ρ) (available : Bool)
    (convert : List Nat → Option (List Nat)) (db : DB)
    (body : List Nat) : Except HTTPError IdentifyOut :=
  if available = false then .ok ⟨false, none, none⟩
  else if body.length < 1000 then .error ⟨400, "Audio too short"⟩
  else
    let wav :=
      if body.take 4 = riffMagic ∧ (body.drop 8).take 4 = waveMagic then some body
      else convert body
    match wav with
    | none =>
      .error ⟨400, "Send WAV 16 kHz mono, or install ffmpeg on the server to accept webm/other formats"⟩
    | some body1 =>
      let rows := db.participants.filter (fun r =>
        r.family_id = DEFAULT_FAMILY_ID ∧ r.eagle_profile_data.isSome)
      if rows = [] then .ok ⟨false, none, none⟩
      else
        let pairs := rows.map (fun r => (r.id, r.eagle_profile_data.getD []))
        match identify_single_speaker B available pairs body1 with
        | none => .ok ⟨false, none, none⟩
        | some matched_id =>
          match rows.find? (fun r => r.id = matched_id) with
          | none => .ok ⟨false, none, none⟩
          | some p =>
            .ok ⟨true, some p.id,
                 some (if pyStrip p.label = "" then "Someone" else pyStrip p.label)⟩

/-! ## Recall label deriver (`_derive_from_turns` and helpers,
`routers/voice.py`) -/

/-- Model of `MAX_SUMMARY_CHARS`. -/
def MAX_SUMMARY_CHARS : Nat := 100

/-- Model of `MIN_TOPIC_WORD_LEN`. -/
def MIN_TOPIC_WORD_LEN : Nat := 4

/-- Model of `MAX_TAGS`. -/
def MAX_TAGS : Nat := 6

/-- Model of `SKIP_FIRST_N_WORDS`. -/
def SKIP_FIRST_N_WORDS : Nat := 3

/-- Model of `MAX_NICETY_LEN`. -/
def MAX_NICETY_LEN : Nat := 25

/-- Model of `TOPIC_STOPWORDS` (the `frozenset` literal, in source order). -/
def TOPIC_STOPWORDS : List String :=
  ["a", "an", "the", "and", "or", "but", "if", "then", "so", "its", "it's", "to", "from",
   "i", "me", "my", "you", "your", "he", "she", "we", "they", "them", "us", "our", "his", "her",
   "is", "are", "was", "were", "be", "been", "being", "have", "has", "had", "do", "does", "did",
   "will", "would", "could", "should", "may", "might", "can", "just", "really", "very",
   "hello", "hi", "hey", "yes", "no", "ok", "okay", "well", "oh", "ah", "um", "uh",
   "nice", "good", "great", "lovely", "wonderful", "hear", "speak", "talking", "talk",
   "older", "adult", "today", "now", "here", "there", "this", "that", "these", "those",
   "what", "when", "where", "which", "who", "how", "why", "about", "with", "for", "not",
   "thank", "thanks", "thankyou", "gonna", "wanna", "gotta", "also", "more",
   "help", "like", "voice", "feeling", "mind", "doing", "right", "whats", "want", "think",
   "know", "get", "see", "come", "go", "say", "make", "take", "need", "try", "ask", "tell",
   "give", "work", "call", "find", "feel", "seem", "seems", "thing", "things", "way", "day",
   "youre", "sarah"]

/-- Model of `NICETY_PREFIXES` (the tuple, in source order). -/
def NICETY_PREFIXES : List String :=
  ["thank you", "thanks", "thank you.", "thanks.", "ok", "okay", "hi ", "hello ",
   "hey ", "yes.", "no.", "yeah", "yep", "sure."]

/-- One element of a structured content list: either not a JSON object
(skipped by the source) or an object with optional string fields `text` and
`transcript`. -/
inductive PartJson where
  | notDict : PartJson
  | dict (text : Option String) (transcript : Option String) : PartJson
  deriving DecidableEq, Repr

/-- The `content` value of a turn: a string, a list of parts, or absent
(`None`).  (The `str(raw).strip()` fallback for other JSON types is not
modelled; the stored turns are strings or part lists.) -/
inductive RawContent where
  | strVal (s : String) : RawContent
  | listVal (ps : List PartJson) : RawContent
  | noneVal : RawContent
  deriving DecidableEq, Repr

/-- One entry of `session_turns_json`: either not a JSON object (skipped)
or an object with an optional `role` and a `content` value. -/
inductive TurnJson where
  | notDict : TurnJson
  | dict (role : Option String) (content : RawContent) : TurnJson
  deriving DecidableEq, Repr

/-- Model of `_normalize_content`: a string is stripped; a list contributes, for each
dict entry, its stripped `text` and then its stripped `transcript` when they
are strings, joined by single spaces and stripped; `None` becomes `""`. -/
def normalize_content (raw : RawContent) : String :=
  match raw with
  | .noneVal => ""
  | .strVal s => pyStrip s
  | .listVal ps =>
    let parts := ps.flatMap (fun p =>
      match p with
      | .notDict => []
      | .dict t tr =>
        (match t with | some s => [pyStrip s] | none => []) ++
        (match tr with | some s => [pyStrip s] | none => []))
    pyStrip (String.intercalate " " parts)

/-- Model of `_is_nicety_only`: after strip+lowercase, a message of at most
`MAX_NICETY_LEN` characters that starts with one of `NICETY_PREFIXES` or
equals one of the listed bare niceties. -/
def is_nicety_only (msg : String) : Bool :=
  let s := pyLower (pyStrip msg)
  if MAX_NICETY_LEN < s.length then false
  else
    NICETY_PREFIXES.any (fun p => pyStartsWith s p) ||
    decide (s ∈ ["thank you", "thanks", "ok", "okay", "hi", "hello", "hey",
                 "yes", "no", "yeah", "yep", "sure"])

/-- Model of `"".join(c for c in w if c.isalnum() or c in "'-").lower()`. -/
def cleanWord (w : String) : String :=
  pyLower (String.mk (w.toList.filter (fun c => c.isAlphanum || c = '\'' || c = '-')))

/-- The `for` accumulator of `_topic_words_from_text`. -/
def topicWordsLoop (stop : List String) :
    List String → List String → List String → List String
  | [], _, tags => tags
  | w :: ws, seen, tags =>
    if MAX_TAGS ≤ tags.length then tags
    else
      let clean := cleanWord w
      if clean.length < MIN_TOPIC_WORD_LEN ∨ clean ∈ stop ∨ clean ∈ seen then
        topicWordsLoop stop ws seen tags
      else topicWordsLoop stop ws (seen ++ [clean]) (tags ++ [clean])

/-- Model of `_topic_words_from_text`: skip the first `SKIP_FIRST_N_WORDS` words,
keep cleaned words of length ≥ `MIN_TOPIC_WORD_LEN` that are neither stop
words nor already seen, up to `MAX_TAGS` of them. -/
def topic_words_from_text (text : String) : List String :=
  if pyStrip text = "" then []
  else
    let words := pySplit text
    topicWordsLoop TOPIC_STOPWORDS (words.drop SKIP_FIRST_N_WORDS) [] []

/-- The list `user_messages` built by `_derive_from_turns`: for each dict
turn whose lower-cased stripped role is `user` or `human` (entries with any
other role, including unknown ones, are skipped — the source first skips
roles outside `{user, assistant, human}` and then keeps only `user`/`human`),
the normalized content when non-empty. -/
def userMessages (turns : List TurnJson) : List String :=
  turns.filterMap (fun t =>
    match t with
    | .notDict => none
    | .dict role content =>
      let r := pyLower (pyStrip (role.getD ""))
      if r ∈ ["user", "assistant", "human"] then
        if r ∈ ["user", "human"] then
          let c := normalize_content content
          if c = "" then none else some c
        else none
      else none)

/-- Python `max(user_messages, key=len)`: the first message of maximal
length. -/
def pyMaxByLen (msgs : List String) : String :=
  msgs.foldl (fun acc m => if acc.length < m.length then m else acc) (msgs.headD "")

/-- The truncation `summary_msg[:MAX_SUMMARY_CHARS].strip() + ("…" if
len(summary_msg) > MAX_SUMMARY_CHARS else "")`. -/
def truncateSummary (msg : String) : String :=
  pyStrip (String.mk (msg.toList.take MAX_SUMMARY_CHARS)) ++
    (if MAX_SUMMARY_CHARS < msg.length then "…" else "")

/-- Model of `_derive_from_turns`: `None`/empty/non-list input yields `(None, [])`;
otherwise collect the participant messages; with none, `(None, [])`;
otherwise pick the first message, replace it by the first non-nicety of the
rest when it is nicety-only (falling back to the longest message when every
message is a nicety), truncate, and derive tags from all participant text
joined by spaces. -/
def derive_from_turns (turns_json : Option (List TurnJson)) :
    Option String × List String :=
  match turns_json with
  | none => (none, [])
  | some turns =>
    -- Python `if not turns_json`: the empty list is also falsy
    if turns = [] then (none, [])
    else
      let user_messages := userMessages turns
      if user_messages = [] then (none, [])
      else
        let first_user := user_messages.headD ""
        let summary_msg :=
          if is_nicety_only first_user then
            match (user_messages.drop 1).find? (fun m => ¬ is_nicety_only m) with
            | some m => m
            | none => pyMaxByLen user_messages
          else first_user
        let tags := topic_words_from_text (String.intercalate " " user_messages)
        (some (truncateSummary summary_msg), tags.take MAX_TAGS)

/-! ## Helper lemmas -/

theorem int16OfBytes_range (lo hi : Nat) (hlo : lo < 256) (hhi : hi < 256) :
    -32768 ≤ int16OfBytes lo hi ∧ int16OfBytes lo hi < 32768 := by
  simp only [int16OfBytes]
  split <;> constructor <;> omega

theorem bytesToInt16s_length : ∀ bs : List Nat, (bytesToInt16s bs).length = bs.length / 2
  | [] => rfl
  | [_] => by simp [bytesToInt16s]
  | b0 :: b1 :: rest => by
      have ih := bytesToInt16s_length rest
      simp only [bytesToInt16s, List.length_cons, ih]
      omega

theorem bytesToInt16s_mem : ∀ bs : List Nat, (∀ b ∈ bs, b < 256) →
    ∀ s ∈ bytesToInt16s bs, -32768 ≤ s ∧ s < 32768
  | [], _, s, hs => by simp [bytesToInt16s] at hs
  | [_], _, s, hs => by simp [bytesToInt16s] at hs
  | b0 :: b1 :: rest, hb, s, hs => by
      simp only [bytesToInt16s, List.mem_cons] at hs
      rcases hs with h | h
      · subst h
        exact int16OfBytes_range b0 b1 (hb b0 (by simp)) (hb b1 (by simp))
      · exact bytesToInt16s_mem rest (fun b hbb => hb b (by simp [hbb])) s h

theorem int16sToBytes_length (pcm : List Int) :
    (int16sToBytes pcm).length = 2 * pcm.length := by
  induction pcm with
  | nil => rfl
  | cons s rest ih =>
    simp only [int16sToBytes, List.flatMap_cons, List.length_append] at *
    simp [int16ToBytes, ih]
    ring

theorem pyRange_mem (stop step : Nat) (hstep : 0 < step) (i : Nat) :
    i ∈ pyRange stop step ↔ (∃ j, i = j * step) ∧ i < stop := by
  unfold pyRange
  simp only [List.mem_map, List.mem_range]
  constructor
  · rintro ⟨j, hj, rfl⟩
    refine ⟨⟨j, rfl⟩, ?_⟩
    rcases Nat.eq_zero_or_pos stop with hz | hpos
    · subst hz
      rw [Nat.zero_add] at hj
      have : (step - 1) / step = 0 := Nat.div_eq_of_lt (by omega)
      omega
    · have hrw : stop + step - 1 = (stop - 1) + step := by omega
      rw [hrw, Nat.add_div_right _ hstep] at hj
      have : j ≤ (stop - 1) / step := by omega
      have := (Nat.le_div_iff_mul_le hstep).mp this
      omega
  · rintro ⟨⟨j, rfl⟩, hlt⟩
    refine ⟨j, ?_, rfl⟩
    have hpos : 0 < stop := by omega
    have hrw : stop + step - 1 = (stop - 1) + step := by omega
    rw [hrw, Nat.add_div_right _ hstep]
    have : j * step ≤ stop - 1 := by omega
    have := (Nat.le_div_iff_mul_le hstep).mpr this
    omega

theorem frameStarts_mem {ρ : Type} (B : RecognizerBackend ρ) (pcm : List Int)
    (hf : 0 < B.frame_length) (i : Nat) :
    i ∈ frameStarts B pcm ↔
      (∃ j, i = j * B.frame_length) ∧ i + B.frame_length < pcm.length := by
  unfold frameStarts
  rw [pyRange_mem _ _ hf]
  constructor
  · rintro ⟨hj, hlt⟩; exact ⟨hj, by omega⟩
  · rintro ⟨hj, hlt⟩; exact ⟨hj, by omega⟩

theorem updateScores_length : ∀ (ls : List (List ℚ)) (ss : List ℚ),
    (updateScores ls ss).length = ls.length
  | [], _ => rfl
  | _ :: ls, [] => by simp [updateScores, updateScores_length ls []]
  | _ :: ls, _ :: ss => by simp [updateScores, updateScores_length ls ss]

theorem updateScores_getD : ∀ (ls : List (List ℚ)) (ss : List ℚ),
    ss.length = ls.length →
    ∀ k, k < ls.length →
      (updateScores ls ss).getD k [] = ls.getD k [] ++ [ss.getD k 0]
  | [], _, _, k, hk => by simp at hk
  | l :: ls, [], hlen, k, hk => by simp at hlen
  | l :: ls, s :: ss, hlen, k, hk => by
      cases k with
      | zero => simp [updateScores]
      | succ k =>
        have := updateScores_getD ls ss (by simpa using hlen) k (by simpa using hk)
        simpa [updateScores] using this

theorem frameLoop_length {ρ : Type} (B : RecognizerBackend ρ) (pcm : List Int) :
    ∀ (starts : List Nat) (st : ρ) (acc : List (List ℚ)),
      (frameLoop B pcm starts st acc).length = acc.length
  | [], _, _ => rfl
  | i :: rest, st, acc => by
      simp only [frameLoop]
      split
      · rfl
      · rw [frameLoop_length B pcm rest _ _, updateScores_length]

theorem frameLoop_getD_length {ρ : Type} (B : RecognizerBackend ρ) (pcm : List Int)
    (n : Nat) (hproc : ∀ st fr, ((B.process st fr).2).length = n) :
    ∀ (starts : List Nat) (st : ρ) (acc : List (List ℚ)),
      acc.length = n →
      (∀ i ∈ starts, ((pcm.drop i).take B.frame_length).length = B.frame_length) →
      ∀ k, k < n →
        ((frameLoop B pcm starts st acc).getD k []).length =
          (acc.getD k []).length + starts.length
  | [], _, _, _, _, k, hk => by simp [frameLoop]
  | i :: rest, st, acc, hacc, hcomplete, k, hk => by
      simp only [frameLoop]
      have hfull : ((pcm.drop i).take B.frame_length).length = B.frame_length :=
        hcomplete i (by simp)
      rw [if_neg (by simp [hfull])]
      have hlen2 : (updateScores acc ((B.process st ((pcm.drop i).take B.frame_length)).2)).length = n := by
        rw [updateScores_length, hacc]
      have ih := frameLoop_getD_length B pcm n hproc rest
        ((B.process st ((pcm.drop i).take B.frame_length)).1)
        (updateScores acc ((B.process st ((pcm.drop i).take B.frame_length)).2))
        hlen2 (fun j hj => hcomplete j (by simp [hj])) k hk
      rw [ih, updateScores_getD acc _ (by rw [hproc, hacc]) k (by omega)]
      simp
      omega

theorem frameScores_length {ρ : Type} (B : RecognizerBackend ρ) (n : Nat)
    (pcm : List Int) : (frameScores B n pcm).length = n := by
  unfold frameScores
  rw [frameLoop_length, List.length_replicate]

theorem pyArgmaxAux_spec : ∀ (ys full : List ℚ) (i bi : Nat) (bv : ℚ),
    (∀ j, j < ys.length → full.getD (i + j) 0 = ys.getD j 0) →
    full.getD bi 0 = bv →
    (pyArgmaxAux ys i bi bv = bi ∨
      ∃ j, j < ys.length ∧ pyArgmaxAux ys i bi bv = i + j) ∧
    bv ≤ full.getD (pyArgmaxAux ys i bi bv) 0 ∧
    (∀ j, j < ys.length → ys.getD j 0 ≤ full.getD (pyArgmaxAux ys i bi bv) 0)
  | [], full, i, bi, bv, hfull, hbi => by
      refine ⟨Or.inl rfl, ?_, ?_⟩
      · show bv ≤ full.getD bi 0
        rw [hbi]
      · intro j hj; simp at hj
  | y :: ys, full, i, bi, bv, hfull, hbi => by
      have h0 : full.getD i 0 = y := by
        have := hfull 0 (by simp)
        simpa using this
      have hshift : ∀ j, j < ys.length → full.getD (i + 1 + j) 0 = ys.getD j 0 := by
        intro j hj
        have := hfull (j + 1) (by simp; omega)
        have harith : i + (j + 1) = i + 1 + j := by omega
        rw [harith] at this
        simpa using this
      by_cases hlt : bv < y
      · have ih := pyArgmaxAux_spec ys full (i + 1) i y hshift h0
        simp only [pyArgmaxAux, if_pos hlt]
        refine ⟨?_, ?_, ?_⟩
        · rcases ih.1 with h | ⟨j, hj, hjr⟩
          · exact Or.inr ⟨0, by simp, by omega⟩
          · exact Or.inr ⟨j + 1, by simp; omega, by omega⟩
        · exact le_of_lt (lt_of_lt_of_le hlt ih.2.1)
        · intro j hj
          cases j with
          | zero => simpa using ih.2.1
          | succ j => exact ih.2.2 j (by simpa using hj)
      · have ih := pyArgmaxAux_spec ys full (i + 1) bi bv hshift hbi
        simp only [pyArgmaxAux, if_neg hlt]
        refine ⟨?_, ih.2.1, ?_⟩
        · rcases ih.1 with h | ⟨j, hj, hjr⟩
          · exact Or.inl h
          · exact Or.inr ⟨j + 1, by simp; omega, by omega⟩
        · intro j hj
          cases j with
          | zero =>
            simp only [List.getD_cons_zero]
            exact le_trans (not_lt.mp hlt) ih.2.1
          | succ j => exact ih.2.2 j (by simpa using hj)

theorem pyArgmax_lt (xs : List ℚ) (h : xs ≠ []) : pyArgmax xs < xs.length := by
  match xs with
  | [] => exact absurd rfl h
  | x :: rest =>
    have spec := pyArgmaxAux_spec rest (x :: rest) 1 0 x
      (fun j hj => by rw [Nat.add_comm]; rfl) (by simp)
    simp only [pyArgmax]
    rcases spec.1 with hr | ⟨j, hj, hjr⟩
    · simp [hr]
    · rw [hjr]; simp; omega

theorem pyArgmax_max (xs : List ℚ) (k : Nat) (hk : k < xs.length) :
    xs.getD k 0 ≤ xs.getD (pyArgmax xs) 0 := by
  match xs with
  | [] => simp at hk
  | x :: rest =>
    have spec := pyArgmaxAux_spec rest (x :: rest) 1 0 x
      (fun j hj => by rw [Nat.add_comm]; rfl) (by simp)
    simp only [pyArgmax]
    cases k with
    | zero => simpa using spec.2.1
    | succ k =>
      have := spec.2.2 k (by simpa using hk)
      simpa using this

/-! ## Concrete fixtures used by witnesses and counterexamples -/

/-- A valid 44-byte WAV header: `RIFF____WAVE` followed by 32 filler
bytes. -/
def wavHeader : List Nat :=
  riffMagic ++ [0, 0, 0, 0] ++ waveMagic ++ List.replicate 32 0

/-- A minimal valid WAV: the header and one 16-bit sample pair each for the
values 1 and 2. -/
def wavSmall : List Nat := wavHeader ++ [1, 0, 2, 0]

/-- A valid WAV whose body decodes to 1000 zero samples. -/
def wavBig : List Nat := wavHeader ++ List.replicate 2000 0

/-- A valid WAV with a single sample of value 1. -/
def wavOneSample : List Nat := wavHeader ++ [1, 0]

theorem wavHeader_length : wavHeader.length = 44 := by decide

/-- Parsing a WAV made of the valid header and at least one sample pair
succeeds with the decoded body. -/
theorem wav_to_pcm_append (data : List Nat) (h : 2 ≤ data.length) :
    wav_to_pcm (wavHeader ++ data) = some (bytesToInt16s data) := by
  unfold wav_to_pcm
  rw [if_neg, if_neg]
  · rw [show WAV_HEADER_LEN = wavHeader.length from wavHeader_length.symm,
      List.drop_left]
  · rw [not_or, not_not, not_not]
    constructor
    · rw [List.take_append_of_le_length (by rw [wavHeader_length]; omega)]
      decide
    · rw [List.drop_append_of_le_length (by rw [wavHeader_length]; omega),
        List.take_append_of_le_length (by rw [List.length_drop, wavHeader_length]; omega)]
      decide
  · rw [not_lt, List.length_append, wavHeader_length]
    simp only [WAV_HEADER_LEN]
    omega

/-- Decoding `2 * n` zero bytes yields `n` zero samples. -/
theorem bytesToInt16s_replicate_zero :
    ∀ n : Nat, bytesToInt16s (List.replicate (2 * n) 0) = List.replicate n 0
  | 0 => rfl
  | n + 1 => by
      have h2 : 2 * (n + 1) = (2 * n).succ.succ := by omega
      rw [h2]
      show bytesToInt16s (0 :: 0 :: List.replicate (2 * n) 0) = _
      show int16OfBytes 0 0 :: bytesToInt16s (List.replicate (2 * n) 0) = _
      rw [bytesToInt16s_replicate_zero n]
      rfl

/-- The WAV `wavBig` decodes to exactly 1000 zero samples. -/
theorem wavBig_pcm : wav_to_pcm wavBig = some (List.replicate 1000 0) := by
  unfold wavBig
  rw [wav_to_pcm_append _ (by rw [List.length_replicate]; omega),
    show (2000 : Nat) = 2 * 1000 from rfl, bytesToInt16s_replicate_zero]

/-- A profiler that reports 100% on the first chunk (minimum chunk:
1 sample). -/
def profilerFast : ProfilerBackend Unit :=
  ⟨1, Nat.one_pos, (), fun s _ => (s, 100), fun _ => [7]⟩

/-- A profiler needing 4-sample chunks that always reports 50%. -/
def profilerSlow : ProfilerBackend Unit :=
  ⟨4, by omega, (), fun s _ => (s, 50), fun _ => [7]⟩

/-- A fresh participant row (nothing enrolled). -/
def partFresh : VoiceParticipant :=
  ⟨"p1", DEFAULT_FAMILY_ID, "Alice", none, none, none⟩

/-- A participant row already `Enrolled` with a stored profile artifact. -/
def partEnrolled : VoiceParticipant :=
  ⟨"p1", DEFAULT_FAMILY_ID, "Alice", some [9], none, some "Enrolled"⟩

/-- A recognizer with frame length 700 that scores every frame 1 for its
single profile. -/
def recognizer700 : RecognizerBackend Unit :=
  ⟨700, fun _ => true, (), fun _ _ => ((), [1])⟩

/-- A recognizer with frame length 700 whose scores are all 0 (below the
0.5 threshold). -/
def recognizerLow : RecognizerBackend Unit :=
  ⟨700, fun _ => true, (), fun _ _ => ((), [0])⟩

/-- A small recognizer with frame length 2. -/
def recognizer2 : RecognizerBackend Unit :=
  ⟨2, fun _ => true, (), fun _ _ => ((), [1])⟩

/-- A recognizer whose frame length (1001) exceeds a 1000-sample clip, so
no frame is ever scored and every mean is the empty-list default 0. -/
def recognizerHuge : RecognizerBackend Unit :=
  ⟨1001, fun _ => true, (), fun _ _ => ((), [0])⟩

/-- A PCM sample of 1400 zero samples: exactly two complete 700-sample
frames. -/
def pcm1400 : List Int := List.replicate 1400 0

/-- A PCM sample of five zero samples. -/
def pcm5 : List Int := [0, 0, 0, 0, 0]

/-! ## C9 — `wav_to_pcm` characterization -/

/-- C9: `wav_to_pcm` is total; it returns `none` exactly when the input is
shorter than 46 bytes or lacks the `RIFF`/`WAVE` tags at offsets 0 and 8,
and otherwise returns exactly `⌊(len - 44) / 2⌋` signed 16-bit samples
(each in `[-32768, 32768)`), silently dropping a trailing odd byte. -/
theorem wav_to_pcm_spec (bs : List Nat) (hb : ∀ b ∈ bs, b < 256) :
    (wav_to_pcm bs = none ↔
      bs.length < 46 ∨ bs.take 4 ≠ riffMagic ∨ (bs.drop 8).take 4 ≠ waveMagic) ∧
    (∀ l, wav_to_pcm bs = some l →
      l.length = (bs.length - 44) / 2 ∧ ∀ s ∈ l, -32768 ≤ s ∧ s < 32768) := by
  constructor
  · unfold wav_to_pcm
    split
    · rename_i hshort
      simp only [WAV_HEADER_LEN] at hshort
      simp only [true_iff]
      left
      omega
    · split
      · rename_i hmagic
        simp only [true_iff]
        right
        exact hmagic
      · rename_i hlen hmagic
        push_neg at hmagic
        simp only [WAV_HEADER_LEN] at hlen
        constructor

        · intro h; exact absurd h (by simp)
        · rintro (h | h | h)
          · omega
          · exact absurd hmagic.1 (by simp [h])
          · exact absurd hmagic.2 (by simp [h])
  · intro l hl
    unfold wav_to_pcm at hl
    split at hl
    · exact absurd hl (by simp)
    · split at hl
      · exact absurd hl (by simp)
      · have hl' : l = bytesToInt16s (bs.drop WAV_HEADER_LEN) := by
          injection hl with h
          exact h.symm
        subst hl'
        constructor
        · rw [bytesToInt16s_length, List.length_drop]
          simp [WAV_HEADER_LEN]
        · exact bytesToInt16s_mem _ (fun b hbb => hb b (List.mem_of_mem_drop hbb))

/-- C9 witness: the characterization applied to the concrete 48-byte WAV
`wavSmall`. -/
theorem wav_to_pcm_spec_witness :
    (wav_to_pcm wavSmall = none ↔
      wavSmall.length < 46 ∨ wavSmall.take 4 ≠ riffMagic ∨
        (wavSmall.drop 8).take 4 ≠ waveMagic) ∧
    (∀ l, wav_to_pcm wavSmall = some l →
      l.length = (wavSmall.length - 44) / 2 ∧ ∀ s ∈ l, -32768 ≤ s ∧ s < 32768) :=
  wav_to_pcm_spec wavSmall (by decide)

/-! ## C3 — enrollment completion -/

/-- C3: whenever the profiling pass over the full accumulated buffer
(previous pending bytes plus the new clip's packed samples) reports a
completion percentage of at least 100, `enroll_participant` leaves the
participant `Enrolled` with the exported profile artifact stored and the
pending PCM buffer cleared, and returns ok with message `"Enrolled"`. -/
theorem enroll_completion {σ : Type} (P : ProfilerBackend σ)
    (part : VoiceParticipant) (wav : List Nat) (pcm : List Int)
    (hwav : wav_to_pcm wav = some pcm) (hpcm : pcm ≠ [])
    (hpass : 100 ≤ (enrollPass P ((part.eagle_pending_pcm.getD []) ++ int16sToBytes pcm)).2) :
    (enroll_participant P true part wav).1.enrollment_status = some "Enrolled" ∧
    (enroll_participant P true part wav).1.eagle_profile_data =
      some (P.export_profile
        (enrollPass P ((part.eagle_pending_pcm.getD []) ++ int16sToBytes pcm)).1) ∧
    (enroll_participant P true part wav).1.eagle_pending_pcm = none ∧
    (enroll_participant P true part wav).2 = ⟨true, "Enrolled", none⟩ := by
  have hne : bytesToInt16s ((part.eagle_pending_pcm.getD []) ++ int16sToBytes pcm) ≠ [] := by
    intro hempty
    have hlen := bytesToInt16s_length ((part.eagle_pending_pcm.getD []) ++ int16sToBytes pcm)
    rw [hempty] at hlen
    simp only [List.length_nil, List.length_append, int16sToBytes_length] at hlen
    have : 1 ≤ pcm.length := by
      cases pcm with
      | nil => exact absurd rfl hpcm
      | cons _ _ => simp
    omega
  simp only [enroll_participant, hwav, if_neg (by trivial), if_neg hpcm, if_neg hne,
    if_pos hpass]
  exact ⟨rfl, rfl, rfl, rfl⟩

/-- C3 witness: the completion theorem applied to `profilerFast`, a fresh
participant and the two-sample WAV `wavSmall`. -/
theorem enroll_completion_witness :
    (enroll_participant profilerFast true partFresh wavSmall).1.enrollment_status =
        some "Enrolled" ∧
    (enroll_participant profilerFast true partFresh wavSmall).1.eagle_profile_data =
      some (profilerFast.export_profile
        (enrollPass profilerFast
          ((partFresh.eagle_pending_pcm.getD []) ++ int16sToBytes [1, 2])).1) ∧
    (enroll_participant profilerFast true partFresh wavSmall).1.eagle_pending_pcm = none ∧
    (enroll_participant profilerFast true partFresh wavSmall).2 = ⟨true, "Enrolled", none⟩ :=
  enroll_completion profilerFast partFresh wavSmall [1, 2] (by decide) (by decide) (by decide)

/-! ## C4 — pending/profile exclusivity invariant (corrected) -/

/-- Python truthiness of the two buffers: both `eagle_pending_pcm` and
`eagle_profile_data` non-`NULL` and non-empty. -/
def bothBuffersNonempty (p : VoiceParticipant) : Prop :=
  p.eagle_pending_pcm.getD [] ≠ [] ∧ p.eagle_profile_data.getD [] ≠ []

instance (p : VoiceParticipant) : Decidable (bothBuffersNonempty p) := by
  unfold bothBuffersNonempty
  infer_instance

/-- C4 counterexample: re-enrolling an already-`Enrolled` participant with a
clip too short for one profiler chunk leaves the old profile artifact in
place *and* a non-empty pending buffer — the two are both non-empty after
the call, violating the claimed invariant. -/
theorem enroll_invariant_counterexample :
    partEnrolled.eagle_profile_data.getD [] ≠ [] ∧
    bothBuffersNonempty (enroll_participant profilerSlow true partEnrolled wavOneSample).1 := by
  constructor
  · decide
  · decide

/-- C4 (amended): the exclusivity invariant does hold for every enrollment
call on a participant whose stored profile artifact is empty (in particular
throughout any first enrollment); re-enrollment of an already-`Enrolled`
participant can leave both buffers non-empty when the new pass stays below
100%. -/
theorem enroll_invariant_amended {σ : Type} (P : ProfilerBackend σ)
    (available : Bool) (part : VoiceParticipant) (wav : List Nat)
    (h : part.eagle_profile_data.getD [] = []) :
    ¬ bothBuffersNonempty (enroll_participant P available part wav).1 := by
  unfold enroll_participant
  split
  · simp [bothBuffersNonempty, h]
  · split
    · simp [bothBuffersNonempty, h]
    · split
      · simp [bothBuffersNonempty, h]
      · dsimp only
        split
        · simp [bothBuffersNonempty, h]
        · split
          · simp [bothBuffersNonempty]
          · simp [bothBuffersNonempty, h]

/-- C4 witness for the amended invariant: a first enrollment that completes
leaves the buffers mutually exclusive. -/
theorem enroll_invariant_amended_witness :
    partFresh.eagle_profile_data.getD [] = [] ∧
    ¬ bothBuffersNonempty (enroll_participant profilerFast true partFresh wavSmall).1 :=
  ⟨by decide, enroll_invariant_amended profilerFast true partFresh wavSmall (by decide)⟩

/-! ## C1 — identification and the 0.5 threshold (corrected)

The claim as stated fails on the code: `EagleProfile.from_bytes` failures
are silently skipped when building `profiles`
(speaker_recognition_eagle.py:132-137), so `best_idx` ranges over the
*parsed* profiles, yet line 170 returns
`participants_with_profiles[best_idx][0]`, an index into the original
candidate list.  With one unparseable blob ahead of two parseable ones the
indices shift and the id returned is that of a candidate whose own scored
mean is below the threshold (see
`identify_threshold_counterexample`).  When every blob parses, the two
lists line up and the claimed property holds
(`identify_respects_threshold`). -/

/-- A recognizer whose `from_bytes` rejects exactly the blob `[0]` and
whose single processed frame scores `1/5` for the first parsed profile and
`9/10` for the second. -/
def recognizerMis : RecognizerBackend Unit :=
  ⟨700, fun blob => blob ≠ [0], (), fun _ _ => ((), [1/5, 9/10])⟩

/-- Three candidates; the first one's profile blob (`[0]`) does not
parse. -/
def psMis : List (String × List Nat) := [("A", [0]), ("B", [1]), ("C", [2])]

/-- Frame starts of `recognizerMis` on the 1000-sample clip: one frame, at
offset 0. -/
theorem frameStarts_mis :
    frameStarts recognizerMis (List.replicate 1000 0) = [0] := by
  have h1 : recognizerMis.frame_length = 700 := rfl
  have h2 : (List.replicate 1000 (0 : Int)).length = 1000 := by
    rw [List.length_replicate]
  unfold frameStarts pyRange
  rw [h1, h2]
  norm_num
  decide

/-- The candidate mean scores of `recognizerMis` on the 1000-sample clip:
`1/5` for the first parsed profile and `9/10` for the second. -/
theorem candidateMeanScores_mis :
    candidateMeanScores recognizerMis 2 (List.replicate 1000 0) = [1/5, 9/10] := by
  have hf : recognizerMis.frame_length = 700 := rfl
  have hframe : ((List.replicate 1000 (0 : Int)).drop 0).take
      recognizerMis.frame_length = List.replicate 700 0 := by
    rw [hf, List.drop_zero, List.take_replicate]
    norm_num
  unfold candidateMeanScores frameScores
  rw [frameStarts_mis]
  simp only [frameLoop, hframe]
  rw [if_neg (by rw [List.length_replicate, hf]; simp)]
  show List.map meanQ [[1/5], [9/10]] = [1/5, 9/10]
  simp only [List.map_cons, List.map_nil, meanQ, List.sum_cons, List.sum_nil,
    List.length_cons, List.length_nil]
  norm_num

/-- C1 counterexample: with candidates `A` (unparseable blob), `B` and `C`,
a configured backend and a valid 1000-sample WAV, the parsed profiles are
`[B, C]` with mean scores `[1/5, 9/10]`; the argmax (index 1, `C`'s score)
clears the threshold, but the code indexes the original list and returns
`"B"` — a candidate whose own mean per-frame score (`1/5`) is below the
0.5 threshold. -/
theorem identify_threshold_counterexample :
    identify_single_speaker recognizerMis true psMis wavBig = some "B" ∧
    (psMis.filter (fun p => recognizerMis.from_bytes p.2)).map Prod.fst = ["B", "C"] ∧
    (candidateMeanScores recognizerMis 2 (List.replicate 1000 0)).getD 0 0 <
      IDENTIFY_SCORE_THRESHOLD := by
  refine ⟨?_, by decide, ?_⟩
  · have hfilter : psMis.filter (fun p => recognizerMis.from_bytes p.2) =
        [("B", [1]), ("C", [2])] := by decide
    unfold identify_single_speaker
    rw [if_neg (show ¬(psMis = []) by decide),
      if_neg (show ¬(true = false) by decide), wavBig_pcm]
    simp only [if_neg (show ¬((List.replicate 1000 (0 : Int)).length < 1000) by
      rw [List.length_replicate]; omega)]
    simp only [hfilter]
    rw [if_neg (show ¬([("B", [(1 : Nat)]), ("C", [2])] = []) by decide),
      if_neg (show ¬(recognizerMis.frame_length = 0) by decide)]
    rw [show ([("B", [(1 : Nat)]), ("C", [2])]).length = 2 from rfl,
      candidateMeanScores_mis]
    have hargmax : pyArgmax [(1 : ℚ)/5, 9/10] = 1 := by
      show pyArgmaxAux [(9 : ℚ)/10] 1 0 (1/5) = 1
      rw [show pyArgmaxAux [(9 : ℚ)/10] 1 0 (1/5) =
        (if (1 : ℚ)/5 < 9/10 then pyArgmaxAux [] 2 1 (9/10)
         else pyArgmaxAux [] 2 0 (1/5)) from rfl]
      rw [if_pos (by norm_num)]
      rfl
    rw [hargmax,
      if_pos (show IDENTIFY_SCORE_THRESHOLD ≤ [(1 : ℚ)/5, 9/10].getD 1 0 by
        show IDENTIFY_SCORE_THRESHOLD ≤ (9 : ℚ)/10
        norm_num [IDENTIFY_SCORE_THRESHOLD])]
    rfl
  · rw [candidateMeanScores_mis]
    show (1 : ℚ)/5 < IDENTIFY_SCORE_THRESHOLD
    norm_num [IDENTIFY_SCORE_THRESHOLD]

/-- C1 (amended): for a call to `identify_single_speaker` with a non-empty
candidate list with distinct ids whose profile blobs all parse (as blobs
exported by the backend itself do), a configured backend and a valid WAV
of at least 1000 PCM samples: a candidate whose mean per-frame score is
below the 0.5 threshold is never returned as the match, and when every
candidate's mean score is below the threshold the result is `none`.
Without the parseability proviso the property fails: unparseable blobs
shift the indexing between scored profiles and candidates (see
`identify_threshold_counterexample`). -/
theorem identify_respects_threshold {ρ : Type} (B : RecognizerBackend ρ)
    (ps : List (String × List Nat)) (wav : List Nat) (pcm : List Int)
    (hne : ps ≠ [])
    (hparse : ∀ p ∈ ps, B.from_bytes p.2 = true)
    (hnodup : (ps.map Prod.fst).Nodup)
    (hwav : wav_to_pcm wav = some pcm)
    (hlen : 1000 ≤ pcm.length) :
    (∀ k (hk : k < ps.length),
      (candidateMeanScores B ps.length pcm).getD k 0 < IDENTIFY_SCORE_THRESHOLD →
      identify_single_speaker B true ps wav ≠ some (ps.get ⟨k, hk⟩).1) ∧
    ((∀ k, k < ps.length →
        (candidateMeanScores B ps.length pcm).getD k 0 < IDENTIFY_SCORE_THRESHOLD) →
      identify_single_speaker B true ps wav = none) := by
  have hfilter : ps.filter (fun p => B.from_bytes p.2) = ps :=
    List.filter_eq_self.mpr hparse
  have hmlen : (candidateMeanScores B ps.length pcm).length = ps.length := by
    unfold candidateMeanScores
    rw [List.length_map, frameScores_length]
  have hid : identify_single_speaker B true ps wav =
      (if ps.filter (fun p => B.from_bytes p.2) = [] then none
       else if B.frame_length = 0 then none
       else
         let mean_scores := candidateMeanScores B
           (ps.filter (fun p => B.from_bytes p.2)).length pcm
         let best_idx := pyArgmax mean_scores
         if IDENTIFY_SCORE_THRESHOLD ≤ mean_scores.getD best_idx 0 then
           some ((ps.getD best_idx ("", [])).1)
         else none) := by
    unfold identify_single_speaker
    rw [if_neg hne, if_neg (by trivial), hwav]
    simp only [if_neg (by omega : ¬ pcm.length < 1000)]
  rw [hfilter] at hid
  by_cases hz : B.frame_length = 0
  · rw [if_neg hne, if_pos hz] at hid
    exact ⟨fun k hk _ => by simp [hid], fun _ => hid⟩
  · rw [if_neg hne, if_neg hz] at hid
    simp only at hid
    by_cases hthr : IDENTIFY_SCORE_THRESHOLD ≤
        (candidateMeanScores B ps.length pcm).getD
          (pyArgmax (candidateMeanScores B ps.length pcm)) 0
    · rw [if_pos hthr] at hid
      have hbest_lt : pyArgmax (candidateMeanScores B ps.length pcm) < ps.length := by
        have hnil : candidateMeanScores B ps.length pcm ≠ [] := by
          intro hnil
          have hlen0 : ps.length = 0 := by rw [← hmlen, hnil]; rfl
          exact hne (List.length_eq_zero.mp hlen0)
        have h := pyArgmax_lt _ hnil
        rw [hmlen] at h
        exact h
      constructor
      · intro k hk hbelow heq
        rw [hid] at heq
        injection heq with heq
        have hget : ps.getD (pyArgmax (candidateMeanScores B ps.length pcm)) ("", []) =
            ps.get ⟨pyArgmax (candidateMeanScores B ps.length pcm), hbest_lt⟩ :=
          List.getD_eq_get ps _ hbest_lt
        rw [hget] at heq
        have hkne : k ≠ pyArgmax (candidateMeanScores B ps.length pcm) := by
          intro hkeq
          subst hkeq
          exact absurd hthr (not_le.mpr hbelow)
        have hfst : ((ps.map Prod.fst).get ⟨k, by simpa using hk⟩) =
            ((ps.map Prod.fst).get ⟨pyArgmax (candidateMeanScores B ps.length pcm),
              by simpa using hbest_lt⟩) := by
          rw [List.get_map, List.get_map]
          exact heq.symm
        have := (List.Nodup.get_inj_iff hnodup).mp hfst
        exact hkne (congrArg Fin.val this)
      · intro hall
        exact absurd hthr (not_le.mpr (hall _ hbest_lt))
    · rw [if_neg hthr] at hid
      exact ⟨fun k hk _ => by simp [hid], fun _ => hid⟩

/-- The single candidate's mean score for `recognizerHuge` on the
1000-sample clip: no frame fits, so the score list stays empty and the
mean is 0. -/
theorem candidateMeanScores_huge :
    candidateMeanScores recognizerHuge 1 (List.replicate 1000 0) = [0] := by
  have h1 : recognizerHuge.frame_length = 1001 := rfl
  have h2 : (List.replicate 1000 (0 : Int)).length = 1000 := by
    rw [List.length_replicate]
  have hstarts : frameStarts recognizerHuge (List.replicate 1000 0) = [] := by
    unfold frameStarts pyRange
    rw [h1, h2]
    norm_num
  unfold candidateMeanScores frameScores
  rw [hstarts]
  show List.map meanQ (List.replicate 1 []) = [0]
  rw [show List.replicate 1 ([] : List ℚ) = [[]] from rfl]
  rw [List.map_cons, List.map_nil]
  rw [show meanQ [] = 0 from rfl]

/-- C1 witness: the single candidate's mean is below the threshold and the
identification of the 1000-sample WAV `wavBig` reports no match. -/
theorem identify_respects_threshold_witness :
    (candidateMeanScores recognizerHuge 1 (List.replicate 1000 0)).getD 0 0 <
        IDENTIFY_SCORE_THRESHOLD ∧
    identify_single_speaker recognizerHuge true [("A", [0])] wavBig = none := by
  constructor
  · rw [candidateMeanScores_huge]
    norm_num [IDENTIFY_SCORE_THRESHOLD]
  · refine (identify_respects_threshold recognizerHuge [("A", [0])] wavBig
      (List.replicate 1000 0) (by decide) (by decide) (by decide)
      wavBig_pcm (by rw [List.length_replicate])).2 ?_
    intro k hk
    simp only [List.length_cons, List.length_nil] at hk
    have hk0 : k = 0 := by omega
    subst hk0
    rw [show [("A", [(0 : Nat)])].length = 1 from rfl, candidateMeanScores_huge]
    norm_num [IDENTIFY_SCORE_THRESHOLD]

/-! ## C6 — frame splitting in identification (corrected) -/

/-- C6 counterexample: a 1400-sample clip with frame length 700 has exactly
two complete frames (the second starting at offset 700 is complete), yet
offset 700 is not among the scored frame starts — the loop
`range(0, len(pcm) - frame_len, frame_len)` excludes it — so the single
candidate accumulates only one frame score instead of two. -/
theorem identify_frames_counterexample :
    pcm1400.length = 2 * recognizer700.frame_length ∧
    ((pcm1400.drop 700).take recognizer700.frame_length).length =
      recognizer700.frame_length ∧
    (700 : Nat) ∉ frameStarts recognizer700 pcm1400 ∧
    ((frameScores recognizer700 1 pcm1400).getD 0 []).length = 1 := by
  have hlen : pcm1400.length = 1400 := by
    unfold pcm1400
    rw [List.length_replicate]
  have hf : recognizer700.frame_length = 700 := rfl
  have hstarts : frameStarts recognizer700 pcm1400 = [0] := by
    unfold frameStarts pyRange
    rw [hf, hlen]
    norm_num
    decide
  refine ⟨by rw [hlen, hf], ?_, ?_, ?_⟩
  · rw [hf]
    unfold pcm1400
    rw [List.drop_replicate, List.take_replicate, List.length_replicate]
    norm_num
  · rw [hstarts]
    decide
  · have hframe : (pcm1400.drop 0).take recognizer700.frame_length =
        List.replicate 700 0 := by
      rw [hf]
      unfold pcm1400
      rw [List.drop_replicate, List.take_replicate]
      norm_num
    unfold frameScores
    rw [hstarts]
    show ((frameLoop recognizer700 pcm1400 [0] recognizer700.init
      (List.replicate 1 [])).getD 0 []).length = 1
    rw [show (List.replicate 1 ([] : List ℚ)) = [[]] from rfl]
    simp only [frameLoop, hframe]
    rw [if_neg (by rw [List.length_replicate, hf]; simp)]
    rfl

/-- C6 (amended): `identify_single_speaker` scores fixed-length
non-overlapping frames, never a partial trailing frame, appending for each
scored frame exactly one score per candidate, and the mean is taken over
exactly those lists — but the scored frames are those whose start `i`
(a multiple of the frame length) satisfies `i + frame_length <
len(pcm)` *strictly*, so when `len(pcm)` is an exact multiple of the frame
length the final complete frame is not scored. -/
theorem identify_frames_amended {ρ : Type} (B : RecognizerBackend ρ) (n : Nat)
    (pcm : List Int) (hf : 0 < B.frame_length)
    (hproc : ∀ st fr, ((B.process st fr).2).length = n) :
    (∀ i, i ∈ frameStarts B pcm ↔
      (∃ j, i = j * B.frame_length) ∧ i + B.frame_length < pcm.length) ∧
    (∀ i ∈ frameStarts B pcm,
      ((pcm.drop i).take B.frame_length).length = B.frame_length) ∧
    (frameScores B n pcm).length = n ∧
    (∀ k, k < n →
      ((frameScores B n pcm).getD k []).length = (frameStarts B pcm).length) ∧
    candidateMeanScores B n pcm = (frameScores B n pcm).map meanQ := by
  have hmem := frameStarts_mem B pcm hf
  have hcomplete : ∀ i ∈ frameStarts B pcm,
      ((pcm.drop i).take B.frame_length).length = B.frame_length := by
    intro i hi
    have := (hmem i).mp hi
    rw [List.length_take, List.length_drop]
    omega
  refine ⟨hmem, hcomplete, frameScores_length B n pcm, ?_, rfl⟩
  intro k hk
  unfold frameScores
  rw [frameLoop_getD_length B pcm n hproc (frameStarts B pcm) B.init
    (List.replicate n []) (List.length_replicate ..) hcomplete k hk]
  rw [List.getD_eq_getElem _ _ (by rw [List.length_replicate]; exact hk)]
  simp

/-- C6 witness for the amended statement: frame length 2 on a five-sample
clip scores the frames starting at 0 and 2 — one score each for the single
candidate. -/
theorem identify_frames_amended_witness :
    0 < recognizer2.frame_length ∧
    ((frameScores recognizer2 1 pcm5).getD 0 []).length =
      (frameStarts recognizer2 pcm5).length :=
  ⟨by decide,
   (identify_frames_amended recognizer2 1 pcm5 (by decide)
     (fun st fr => rfl)).2.2.2.1 0 (by decide)⟩

/-! ## C7 — recall summary selection -/

/-- C7: for every session with at least one non-empty participant
utterance, the derived summary is the first participant utterance that is
not nicety-only — falling back to the (first) longest utterance when every
utterance is nicety-only — truncated to `MAX_SUMMARY_CHARS` characters with
the `…` marker appended exactly when the chosen text exceeds the cap. -/
theorem derive_summary_selection (turns : List TurnJson)
    (h : userMessages turns ≠ []) :
    (derive_from_turns (some turns)).1 =
      some (truncateSummary
        (match (userMessages turns).find? (fun m => ¬ is_nicety_only m) with
         | some m => m
         | none => pyMaxByLen (userMessages turns))) ∧
    (∀ m : String, truncateSummary m =
      pyStrip (String.mk (m.toList.take MAX_SUMMARY_CHARS)) ++
        (if MAX_SUMMARY_CHARS < m.length then "…" else "")) := by
  refine ⟨?_, fun m => rfl⟩
  have hturns : turns ≠ [] := by
    intro ht
    subst ht
    exact h rfl
  unfold derive_from_turns
  dsimp only
  rw [if_neg hturns, if_neg h]
  dsimp only
  rcases hm : userMessages turns with _ | ⟨first, rest⟩
  · exact absurd hm h
  · rw [hm] at *
    by_cases hn : is_nicety_only (List.headD (first :: rest) "")
    · rw [if_pos hn]
      have hfind : (first :: rest).find? (fun m => ¬ is_nicety_only m) =
          rest.find? (fun m => ¬ is_nicety_only m) := by
        refine List.find?_cons_of_neg _ ?_
        simpa using hn
      rw [hfind]
      rfl
    · rw [if_neg hn]
      have hfind : (first :: rest).find? (fun m => ¬ is_nicety_only m) =
          some first := by
        refine List.find?_cons_of_pos _ ?_
        simpa using hn
      rw [hfind]
      rfl

/-- C7 witness: the scenario where the participant says only "Thanks!" and
then "My knee surgery went well last week": the summary is the second
utterance, not the first. -/
theorem derive_summary_selection_witness :
    userMessages
        [TurnJson.dict (some "user") (.strVal "Thanks!"),
         TurnJson.dict (some "assistant") (.strVal "That is great to hear."),
         TurnJson.dict (some "user") (.strVal "My knee surgery went well last week")] ≠ [] ∧
    (derive_from_turns (some
        [TurnJson.dict (some "user") (.strVal "Thanks!"),
         TurnJson.dict (some "assistant") (.strVal "That is great to hear."),
         TurnJson.dict (some "user") (.strVal "My knee surgery went well last week")])).1 =
      some "My knee surgery went well last week" := by
  refine ⟨by decide, ?_⟩
  rw [(derive_summary_selection _ (by decide)).1]
  decide

/-! ## C2 — sharing requires status `final` (corrected) -/

/-- A story row that is already shared. -/
def storyShared : VoiceStory :=
  ⟨"s1", DEFAULT_FAMILY_ID, "p1", some "A title", some "A summary", [],
   some "Story text", none, "shared", some "m0"⟩

/-- A database holding only the already-shared story. -/
def dbShared : DB := ⟨[], [], [storyShared], [], []⟩

/-- A story row still in `draft` status. -/
def storyDraft : VoiceStory :=
  ⟨"s2", DEFAULT_FAMILY_ID, "p1", none, none, [], some "Draft text", none,
   "draft", none⟩

/-- A database holding only the draft story. -/
def dbDraft : DB := ⟨[], [], [storyDraft], [], []⟩

/-- C2 counterexample: sharing an already-`shared` story fails with HTTP
404 (`NotFound`, detail "Story not found or already shared."), not with an
HTTP 409 `Conflict`, leaving the database unchanged. -/
theorem share_conflict_counterexample :
    storyShared.status = "shared" ∧
    share_voice_story (fun _ => none) dbShared "s1" "p1" 0 "m1" =
      (dbShared, .error ⟨404, "Story not found or already shared."⟩) := by
  constructor
  · rfl
  · rfl

/-- C2 (amended): `share_voice_story` transitions a story to `shared` only
from status `final`; called for a story in any other status it fails
cleanly — with `NotFound` (HTTP 404, "Story not found or already shared."),
not `Conflict` — publishing nothing: the database, including the story row
and the moments, is returned unchanged. -/
theorem share_requires_final_amended (title_gen : String → Option String)
    (db : DB) (story_id participant_id : String) (now : Nat)
    (new_moment_id : String)
    (h : ∀ s ∈ db.stories,
      (s.id = story_id ∧ s.family_id = DEFAULT_FAMILY_ID ∧
        s.participant_id = participant_id) → s.status ≠ "final") :
    share_voice_story title_gen db story_id participant_id now new_moment_id =
      (db, .error ⟨404, "Story not found or already shared."⟩) := by
  have hfind : db.stories.find? (fun s =>
      s.id = story_id ∧ s.family_id = DEFAULT_FAMILY_ID ∧
      s.participant_id = participant_id ∧ s.status = "final") = none := by
    rw [List.find?_eq_none]
    intro s hs
    simp only [decide_eq_true_eq, not_and]
    intro h1 h2 h3
    exact h s hs ⟨h1, h2, h3⟩
  unfold share_voice_story
  rw [hfind]

/-- C2 witness for the amended statement: sharing the `draft` story fails
with the 404 and leaves the database unchanged. -/
theorem share_requires_final_amended_witness :
    share_voice_story (fun _ => none) dbDraft "s2" "p1" 5 "m9" =
      (dbDraft, .error ⟨404, "Story not found or already shared."⟩) :=
  share_requires_final_amended (fun _ => none) dbDraft "s2" "p1" 5 "m9" (by decide)

/-! ## C8 — mark-listened is idempotent -/

theorem countListens_zero_iff (db : DB) (pid mid : String) :
    countListens db pid mid = 0 ↔
      db.listens.find? (fun l => l.participant_id = pid ∧ l.moment_id = mid) = none := by
  unfold countListens
  rw [List.length_eq_zero, List.filter_eq_nil_iff, List.find?_eq_none]

/-- One call of `mark_shared_story_listened` under the existence
preconditions: it answers ok, leaves moments and participants unchanged,
and the pair's listen count becomes 1 if it was 0 and is unchanged
otherwise. -/
theorem mark_step (db : DB) (pid mid : String)
    (hm : (db.moments.find? (fun m =>
      m.id = mid ∧ m.family_id = DEFAULT_FAMILY_ID ∧ m.source = "voice_story")).isSome)
    (hp : (db.participants.find? (fun p =>
      p.id = pid ∧ p.family_id = DEFAULT_FAMILY_ID)).isSome) :
    (mark_shared_story_listened db pid mid).2 = .ok true ∧
    (mark_shared_story_listened db pid mid).1.moments = db.moments ∧
    (mark_shared_story_listened db pid mid).1.participants = db.participants ∧
    countListens (mark_shared_story_listened db pid mid).1 pid mid =
      (if countListens db pid mid = 0 then 1 else countListens db pid mid) := by
  obtain ⟨m, hmeq⟩ := Option.isSome_iff_exists.mp hm
  obtain ⟨p, hpeq⟩ := Option.isSome_iff_exists.mp hp
  unfold mark_shared_story_listened
  rw [hmeq, hpeq]
  rcases hfind : db.listens.find? (fun l =>
      l.participant_id = pid ∧ l.moment_id = mid) with _ | l
  · rw [hfind]
    have h0 : countListens db pid mid = 0 := (countListens_zero_iff db pid mid).mpr hfind
    rw [if_pos h0]
    refine ⟨rfl, rfl, rfl, ?_⟩
    unfold countListens at h0 ⊢
    simp only [List.filter_append, List.length_append, h0]
    simp
  · have hne : countListens db pid mid ≠ 0 := by
      intro h0
      rw [(countListens_zero_iff db pid mid).mp h0] at hfind
      cases hfind
    rw [hfind, if_neg hne]
    exact ⟨rfl, rfl, rfl, rfl⟩

/-- When a listen row for the pair already exists, the call is a complete
no-op on the database. -/
theorem mark_noop (db : DB) (pid mid : String)
    (hm : (db.moments.find? (fun m =>
      m.id = mid ∧ m.family_id = DEFAULT_FAMILY_ID ∧ m.source = "voice_story")).isSome)
    (hp : (db.participants.find? (fun p =>
      p.id = pid ∧ p.family_id = DEFAULT_FAMILY_ID)).isSome)
    (hc : countListens db pid mid ≠ 0) :
    mark_shared_story_listened db pid mid = (db, .ok true) := by
  obtain ⟨m, hmeq⟩ := Option.isSome_iff_exists.mp hm
  obtain ⟨p, hpeq⟩ := Option.isSome_iff_exists.mp hp
  unfold mark_shared_story_listened
  rw [hmeq, hpeq]
  rcases hfind : db.listens.find? (fun l =>
      l.participant_id = pid ∧ l.moment_id = mid) with _ | l
  · exact absurd ((countListens_zero_iff db pid mid).mpr hfind) hc
  · rw [hfind]

theorem markIter_noop (pid mid : String) : ∀ (n : Nat) (db : DB),
    (db.moments.find? (fun m =>
      m.id = mid ∧ m.family_id = DEFAULT_FAMILY_ID ∧ m.source = "voice_story")).isSome →
    (db.participants.find? (fun p =>
      p.id = pid ∧ p.family_id = DEFAULT_FAMILY_ID)).isSome →
    countListens db pid mid ≠ 0 →
    markIter n db pid mid = (db, true)
  | 0, db, _, _, _ => rfl
  | n + 1, db, hm, hp, hc => by
      unfold markIter
      rw [mark_noop db pid mid hm hp hc]
      exact markIter_noop pid mid n db hm hp hc

/-- C8: with the shared-story moment and the participant present, any
positive number of `mark_shared_story_listened` calls for the same
`(participant_id, moment_id)` pair starting from no listen row leaves
exactly one `SharedStoryListen` row for the pair, every call returning
success. -/
theorem mark_listened_idempotent (db : DB) (pid mid : String) (n : Nat)
    (hm : ∃ m ∈ db.moments,
      m.id = mid ∧ m.family_id = DEFAULT_FAMILY_ID ∧ m.source = "voice_story")
    (hp : ∃ p ∈ db.participants, p.id = pid ∧ p.family_id = DEFAULT_FAMILY_ID)
    (h0 : countListens db pid mid = 0) (hn : 1 ≤ n) :
    countListens (markIter n db pid mid).1 pid mid = 1 ∧
    (markIter n db pid mid).2 = true := by
  have hm' : (db.moments.find? (fun m =>
      m.id = mid ∧ m.family_id = DEFAULT_FAMILY_ID ∧ m.source = "voice_story")).isSome := by
    rw [List.find?_isSome]
    obtain ⟨m, hmem, hprop⟩ := hm
    exact ⟨m, hmem, by simpa using hprop⟩
  have hp' : (db.participants.find? (fun p =>
      p.id = pid ∧ p.family_id = DEFAULT_FAMILY_ID)).isSome := by
    rw [List.find?_isSome]
    obtain ⟨p, hmem, hprop⟩ := hp
    exact ⟨p, hmem, by simpa using hprop⟩
  obtain ⟨k, rfl⟩ : ∃ k, n = k + 1 := ⟨n - 1, by omega⟩
  have hstep := mark_step db pid mid hm' hp'
  rcases hcall : mark_shared_story_listened db pid mid with ⟨db1, r⟩
  rw [hcall] at hstep
  have hr : r = .ok true := hstep.1
  have hcount1 : countListens db1 pid mid = 1 := by
    have := hstep.2.2.2
    rw [if_pos h0] at this
    exact this
  have hm1 : (db1.moments.find? (fun m =>
      m.id = mid ∧ m.family_id = DEFAULT_FAMILY_ID ∧ m.source = "voice_story")).isSome := by
    rw [hstep.2.1]; exact hm'
  have hp1 : (db1.participants.find? (fun p =>
      p.id = pid ∧ p.family_id = DEFAULT_FAMILY_ID)).isSome := by
    rw [hstep.2.2.1]; exact hp'
  have hiter : markIter (k + 1) db pid mid = markIter k db1 pid mid := by
    conv_lhs => rw [show markIter (k + 1) db pid mid =
      (match mark_shared_story_listened db pid mid with
       | (db', Except.ok _) => markIter k db' pid mid
       | (db', Except.error _) => (db', false)) from rfl]
    rw [hcall, hr]
  rw [hiter, markIter_noop pid mid k db1 hm1 hp1 (by rw [hcount1]; omega)]
  exact ⟨hcount1, rfl⟩

/-- A listened-marking fixture: one shared-story moment and one
participant, no listen rows yet. -/
def momentStory : Moment :=
  ⟨"m1", DEFAULT_FAMILY_ID, "A title", some "A summary", "voice_story",
   some "p1", [], some 3, none⟩

/-- The participant row used in the listened-marking fixtures. -/
def partRow : VoiceParticipant :=
  ⟨"p1", DEFAULT_FAMILY_ID, "Alice", none, none, none⟩

/-- Fixture database for the idempotency witness. -/
def dbMark : DB := ⟨[partRow], [momentStory], [], [], []⟩

/-- C8 witness: two calls on the fixture leave exactly one listen row and
both succeed. -/
theorem mark_listened_idempotent_witness :
    countListens (markIter 2 dbMark "p1" "m1").1 "p1" "m1" = 1 ∧
    (markIter 2 dbMark "p1" "m1").2 = true :=
  mark_listened_idempotent dbMark "p1" "m1" 2 (by decide) (by decide)
    (by decide) (by omega)

/-! ## C10 — the mark-listened `NotFound` precondition is shallow -/

/-- C10: `mark_shared_story_listened`'s moment lookup filters only on
`(id, family, source = "voice_story")`; with a matching moment that is
soft-deleted (`deleted_at` set) and never shared (`shared_at` null) and an
existing participant, the call still succeeds and a listen row for the
pair is present afterwards. -/
theorem mark_listened_ignores_deleted_unshared (db : DB) (pid mid : String)
    (hm : ∃ m ∈ db.moments,
      m.id = mid ∧ m.family_id = DEFAULT_FAMILY_ID ∧ m.source = "voice_story" ∧
      m.deleted_at.isSome ∧ m.shared_at = none)
    (hp : ∃ p ∈ db.participants, p.id = pid ∧ p.family_id = DEFAULT_FAMILY_ID) :
    (mark_shared_story_listened db pid mid).2 = .ok true ∧
    ((mark_shared_story_listened db pid mid).1.listens.find?
      (fun l => l.participant_id = pid ∧ l.moment_id = mid)).isSome := by
  have hm' : (db.moments.find? (fun m =>
      m.id = mid ∧ m.family_id = DEFAULT_FAMILY_ID ∧ m.source = "voice_story")).isSome := by
    rw [List.find?_isSome]
    obtain ⟨m, hmem, hprop⟩ := hm
    exact ⟨m, hmem, by simp [hprop.1, hprop.2.1, hprop.2.2.1]⟩
  have hp' : (db.participants.find? (fun p =>
      p.id = pid ∧ p.family_id = DEFAULT_FAMILY_ID)).isSome := by
    rw [List.find?_isSome]
    obtain ⟨p, hmem, hprop⟩ := hp
    exact ⟨p, hmem, by simpa using hprop⟩
  obtain ⟨m, hmeq⟩ := Option.isSome_iff_exists.mp hm'
  obtain ⟨p, hpeq⟩ := Option.isSome_iff_exists.mp hp'
  unfold mark_shared_story_listened
  rw [hmeq, hpeq]
  rcases hfind : db.listens.find? (fun l =>
      l.participant_id = pid ∧ l.moment_id = mid) with _ | l
  · rw [hfind]
    refine ⟨rfl, ?_⟩
    rw [List.find?_isSome]
    exact ⟨⟨pid, mid⟩, by simp, by simp⟩
  · rw [hfind]
    refine ⟨rfl, ?_⟩
    simpa using congrArg Option.isSome hfind

/-- A soft-deleted, never-shared voice-story moment. -/
def momentDeleted : Moment :=
  ⟨"m2", DEFAULT_FAMILY_ID, "Gone", none, "voice_story", some "p1", [],
   none, some 5⟩

/-- Fixture database for the C10 witness: the only moment is soft-deleted
and has never been shared. -/
def dbDeleted : DB := ⟨[partRow], [momentDeleted], [], [], []⟩

/-- C10 witness: marking the soft-deleted, never-shared moment as listened
succeeds and records the listen row. -/
theorem mark_listened_ignores_deleted_unshared_witness :
    (mark_shared_story_listened dbDeleted "p1" "m2").2 = .ok true ∧
    ((mark_shared_story_listened dbDeleted "p1" "m2").1.listens.find?
      (fun l => l.participant_id = "p1" ∧ l.moment_id = "m2")).isSome :=
  mark_listened_ignores_deleted_unshared dbDeleted "p1" "m2" (by decide) (by decide)

/-! ## C5 — "not configured" vs "no match" (corrected) -/

/-- A database with one enrolled participant carrying a profile. -/
def dbEnrolled : DB :=
  ⟨[⟨"A", DEFAULT_FAMILY_ID, "Alice", some [1], none, some "Enrolled"⟩],
   [], [], [], []⟩

/-- A database with no participants at all. -/
def dbEmptyParts : DB := ⟨[], [], [], [], []⟩

/-- A converter standing for `to_wav_16k_mono` that never succeeds (ffmpeg
absent); unused on already-WAV bodies. -/
def convNone : List Nat → Option (List Nat) := fun _ => none

/-- C5 counterexample: with the backend not configured, `voice_identify`
answers exactly `IdentifyOut(recognized=False)` — the very value returned
by a configured call that finds no candidates — so "not configured" is
reported identically to "nobody matched", not distinctly. -/
theorem identify_unavailable_counterexample :
    dbEnrolled.participants ≠ [] ∧
    voice_identify recognizer700 false convNone dbEnrolled wavBig =
      .ok ⟨false, none, none⟩ ∧
    voice_identify recognizer700 true convNone dbEmptyParts wavBig =
      .ok ⟨false, none, none⟩ := by
  refine ⟨by decide, by rfl, ?_⟩
  have hblen : wavBig.length = 2044 := by
    unfold wavBig
    rw [List.length_append, wavHeader_length, List.length_replicate]
  have hriff : wavBig.take 4 = riffMagic := by
    unfold wavBig
    rw [List.take_append_of_le_length (by rw [wavHeader_length]; omega)]
    decide
  have hwave : (wavBig.drop 8).take 4 = waveMagic := by
    unfold wavBig
    rw [List.drop_append_of_le_length (by rw [wavHeader_length]; omega),
      List.take_append_of_le_length (by rw [List.length_drop, wavHeader_length]; omega)]
    decide
  unfold voice_identify
  rw [if_neg (by simp), if_neg (by rw [hblen]; omega), if_pos ⟨hriff, hwave⟩]
  rfl

/-- C5 (amended): when the enrollment/identification backend is not
configured, identification does *not* report a distinct outcome: the
`/voice/identify` endpoint answers the ordinary no-match value
`IdentifyOut(recognized=False)` and `identify_single_speaker` returns
`None`, for every input. -/
theorem identify_unavailable_amended {ρ : Type} (B : RecognizerBackend ρ)
    (conv : List Nat → Option (List Nat)) (db : DB) (body : List Nat)
    (ps : List (String × List Nat)) (wav : List Nat) :
    voice_identify B false conv db body = .ok ⟨false, none, none⟩ ∧
    identify_single_speaker B false ps wav = none := by
  constructor
  · rfl
  · unfold identify_single_speaker
    by_cases hps : ps = []
    · rw [if_pos hps]
    · rw [if_neg hps, if_pos rfl]

end LifeBook
